import Mathlib

/-!
# g2log: call-site front end and logging lifecycle

A verification development for `src/g2log.hpp`.

* Part 1 embeds the call-site definitions of the header (`LOG`, `LOG_IF`,
  `LOGF`, `LOGF_IF`, `CHECK`, `CHECK_F`, `INTERNAL_LOG_MESSAGE`,
  `INTERNAL_CONTRACT_MESSAGE`).  They are textual substitutions, so the
  condition argument is an expression (its tokens), not a value: the
  embedding keeps the spelling of the argument and the way the expanded
  `if (...)` condition parses.
* Part 2 models the functions the header only declares (`initializeLogging`,
  `shutDownLogging`, `pushMessageToLogger`, `fatalCall`, ...) from the
  specification; their bodies live in `g2log.cpp`.
-/

namespace g2

/-! ## Part 1: the call-site definitions of g2log.hpp -/

/-- Modelled from the spec: the `LEVELS` type of `g2loglevels.hpp` (included
by the header).  Levels are an ordered, extensible set: a numeric rank and a
display name. -/
structure LEVELS where
  value : Int
  text : String
deriving DecidableEq

/-- What the header uses from `g2loglevels.hpp` without defining it: the
level gate `g2::logLevel` and the pseudo-level `g2::internal::CONTRACT`.
Both are parameters of the embedding. -/
structure LevelEnv where
  logLevel : LEVELS → Bool
  CONTRACT : LEVELS

/-- The source position a call site expands with: `__FILE__`, `__LINE__`
and `__PRETTY_FUNCTION__`. -/
structure CallSite where
  file : String
  line : Nat
  function : String
deriving DecidableEq

/-- The record a call site constructs, `LogCapture(file, line, function,
level, expression)`.  The class is declared in `g2logmessagecapture.hpp`;
the fields are the constructor arguments the header passes.  The fifth
argument is absent for `INTERNAL_LOG_MESSAGE`, which leaves the expression
text empty. -/
structure LogCapture where
  file : String
  line : Nat
  function : String
  level : LEVELS
  expression : String
deriving DecidableEq

/-- A C++ value of the two types a condition can have here: `bool` or
`int`. -/
inductive Val where
  | bool (b : Bool)
  | int (n : Int)
deriving DecidableEq

/-- Integral promotion: `false` is 0 and `true` is 1. -/
def Val.toInt : Val → Int
  | .bool b => if b then 1 else 0
  | .int n => n

/-- Contextual conversion to `bool`, as `if (...)`, `!`, `&&` and `||`
apply it: an integer is true when it is not zero. -/
def Val.truthy : Val → Bool
  | .bool b => b
  | .int n => decide (n ≠ 0)

/-- Binary operators of the fragment, tightest first. -/
inductive BinOp where
  | lt | gt | eq | ne | band | bxor | bor | land | lor
deriving DecidableEq

/-- C++ precedence level of a binary operator (a smaller number binds
tighter): relational 9, equality 10, `&` 11, `^` 12, `|` 13, `&&` 14,
`||` 15. -/
def BinOp.prec : BinOp → Nat
  | .lt => 9
  | .gt => 9
  | .eq => 10
  | .ne => 10
  | .band => 11
  | .bxor => 12
  | .bor => 13
  | .land => 14
  | .lor => 15

/-- Parse tree of a condition: literals (or variables already read), a
parenthesised expression, `!e`, a binary operation and `c ? t : e`. -/
inductive Expr where
  | lit (v : Val)
  | paren (e : Expr)
  | lnot (e : Expr)
  | bin (op : BinOp) (l r : Expr)
  | cond (c t e : Expr)
deriving DecidableEq

/-- Value of a binary operation after the usual arithmetic conversions:
comparisons give `bool`, bitwise operators give `int`, `&&` and `||`
convert both operands to `bool`. -/
def BinOp.apply (op : BinOp) (a b : Val) : Val :=
  match op with
  | .lt => .bool (decide (a.toInt < b.toInt))
  | .gt => .bool (decide (b.toInt < a.toInt))
  | .eq => .bool (decide (a.toInt = b.toInt))
  | .ne => .bool (decide (a.toInt ≠ b.toInt))
  | .band => .int (Int.land a.toInt b.toInt)
  | .bxor => .int (Int.xor a.toInt b.toInt)
  | .bor => .int (Int.lor a.toInt b.toInt)
  | .land => .bool (a.truthy && b.truthy)
  | .lor => .bool (a.truthy || b.truthy)

/-- Value of `c ? t : e`: the selected branch, promoted to `int` unless
both branches are `bool`. -/
def condValue (c t e : Val) : Val :=
  let chosen := if c.truthy then t else e
  match t, e with
  | .bool _, .bool _ => chosen
  | _, _ => .int chosen.toInt

/-- Evaluation of a condition (the fragment has no side effects). -/
def Expr.eval : Expr → Val
  | .lit v => v
  | .paren e => e.eval
  | .lnot e => .bool (!e.eval.truthy)
  | .bin op l r => op.apply l.eval r.eval
  | .cond c t e => condValue c.eval t.eval e.eval

/-- The parse of the token sequence `true == boolean_expression`, where the
argument is pasted without parentheses (`LOG_IF`, `LOGF_IF`).  `==` binds
tighter than `&`, `^`, `|`, `&&`, `||` and `?:` and associates to the left,
so when the argument's top operator is one of those (or another `==`/`!=`)
the comparison attaches to its leftmost operand only. -/
def expandTrueEq : Expr → Expr
  | .bin op l r =>
      if op.prec < BinOp.eq.prec then .bin .eq (.lit (.bool true)) (.bin op l r)
      else .bin op (expandTrueEq l) r
  | .cond c t e => .cond (expandTrueEq c) t e
  | e => .bin .eq (.lit (.bool true)) e

/-- The parse of `false == (boolean_expression)` (`CHECK`, `CHECK_F`): the
argument is parenthesised, so the comparison applies to the whole of it. -/
def expandFalseEq (e : Expr) : Expr :=
  .bin .eq (.lit (.bool false)) (.paren e)

/-- A condition argument as a call site passes it: `text` is the spelling
the preprocessor's `#` operator gives the argument, `expr` its parse. -/
structure CondArg where
  text : String
  expr : Expr
deriving DecidableEq

/-- What evaluating an expanded call site does, in order: the level gate is
consulted (with its answer), a record is constructed. -/
inductive SiteEvent where
  | gate (level : LEVELS) (enabled : Bool)
  | construct (record : LogCapture)
deriving DecidableEq

/-- Source: `#define INTERNAL_LOG_MESSAGE(level)
LogCapture(__FILE__, __LINE__, __PRETTY_FUNCTION__, level)`. -/
def INTERNAL_LOG_MESSAGE (site : CallSite) (level : LEVELS) : LogCapture :=
  { file := site.file, line := site.line, function := site.function,
    level := level, expression := "" }

/-- Source: `#define INTERNAL_CONTRACT_MESSAGE(boolean_expression)
LogCapture(__FILE__, __LINE__, __PRETTY_FUNCTION__, g2::internal::CONTRACT,
boolean_expression)`. -/
def INTERNAL_CONTRACT_MESSAGE (env : LevelEnv) (site : CallSite)
    (boolean_expression : String) : LogCapture :=
  { file := site.file, line := site.line, function := site.function,
    level := env.CONTRACT, expression := boolean_expression }

/-- Source: `#define LOG(level)
if(g2::logLevel(level)) INTERNAL_LOG_MESSAGE(level).stream()`. -/
def LOG (env : LevelEnv) (site : CallSite) (level : LEVELS) : List SiteEvent :=
  if env.logLevel level then
    [.gate level true, .construct (INTERNAL_LOG_MESSAGE site level)]
  else [.gate level false]

/-- Source: `#define LOG_IF(level, boolean_expression)
if(true == boolean_expression)
if(g2::logLevel(level)) INTERNAL_LOG_MESSAGE(level).stream()`. -/
def LOG_IF (env : LevelEnv) (site : CallSite) (level : LEVELS)
    (boolean_expression : CondArg) : List SiteEvent :=
  if (expandTrueEq boolean_expression.expr).eval.truthy then
    if env.logLevel level then
      [.gate level true, .construct (INTERNAL_LOG_MESSAGE site level)]
    else [.gate level false]
  else []

/-- Source: `#define CHECK(boolean_expression)
if (false == (boolean_expression))
INTERNAL_CONTRACT_MESSAGE(#boolean_expression).stream()`. -/
def CHECK (env : LevelEnv) (site : CallSite) (boolean_expression : CondArg) :
    List SiteEvent :=
  if (expandFalseEq boolean_expression.expr).eval.truthy then
    [.construct (INTERNAL_CONTRACT_MESSAGE env site boolean_expression.text)]
  else []

/-- Source: `#define LOGF(level, printf_like_message, ...)
if(g2::logLevel(level))
INTERNAL_LOG_MESSAGE(level).capturef(printf_like_message, ...)`.
The format arguments are consumed by `capturef`, after construction. -/
def LOGF (env : LevelEnv) (site : CallSite) (level : LEVELS) : List SiteEvent :=
  if env.logLevel level then
    [.gate level true, .construct (INTERNAL_LOG_MESSAGE site level)]
  else [.gate level false]

/-- Source: `#define LOGF_IF(level,boolean_expression, printf_like_message, ...)
if(true == boolean_expression)
if(g2::logLevel(level))
INTERNAL_LOG_MESSAGE(level).capturef(printf_like_message, ...)`. -/
def LOGF_IF (env : LevelEnv) (site : CallSite) (level : LEVELS)
    (boolean_expression : CondArg) : List SiteEvent :=
  if (expandTrueEq boolean_expression.expr).eval.truthy then
    if env.logLevel level then
      [.gate level true, .construct (INTERNAL_LOG_MESSAGE site level)]
    else [.gate level false]
  else []

/-- Source: `#define CHECK_F(boolean_expression, printf_like_message, ...)
if (false == (boolean_expression))
INTERNAL_CONTRACT_MESSAGE(#boolean_expression).capturef(printf_like_message,
...)`. -/
def CHECK_F (env : LevelEnv) (site : CallSite) (boolean_expression : CondArg) :
    List SiteEvent :=
  if (expandFalseEq boolean_expression.expr).eval.truthy then
    [.construct (INTERNAL_CONTRACT_MESSAGE env site boolean_expression.text)]
  else []

/-- The record a call site constructed, if any. -/
def constructed : List SiteEvent → Option LogCapture
  | [] => none
  | .construct r :: _ => some r
  | .gate _ _ :: rest => constructed rest

/-- The levels for which a call site consulted the gate, in order. -/
def gateReads : List SiteEvent → List LEVELS
  | [] => []
  | .gate l _ :: rest => l :: gateReads rest
  | .construct _ :: rest => gateReads rest

/-! ## Part 2: lifecycle registry, push and fatal path

The header declares these functions; their bodies are in `g2log.cpp`.  Each
definition below follows the specification's description of the
function. -/

/-- Modelled from the spec: a `LogWorker` instance.  The registry compares
workers by identity, so a worker is represented by its identity alone (the
address of the object). -/
structure LogWorker where
  id : Nat
deriving DecidableEq

/-- Modelled from the spec: a formatted log record (`LogMessage` of
`g2logmessage.hpp`): what the call site captured and the formatted text. -/
structure LogMessage where
  capture : LogCapture
  message : String
deriving DecidableEq

/-- Modelled from the spec: the discriminant of a fatal record, OS fatal
signal or broken contract. -/
inductive FatalKind where
  | osSignal
  | brokenContract
deriving DecidableEq

/-- Modelled from the spec: a fatal record (`FatalMessage` of
`g2logmessage.hpp`): a log record plus the signal identifier, an optional
captured stack trace and the discriminant. -/
structure FatalMessage where
  message : LogMessage
  signal_id : Nat
  stack_trace : Option String
  kind : FatalKind
deriving DecidableEq

/-- The abort signal of `<csignal>` (6 on POSIX systems). -/
def SIGABRT : Nat := 6

/-- Modelled from the spec: the fatal record synthesized for a broken
contract, tagged "broken contract" with the signal slot set to the abort
signal. -/
def fatalFromContract (m : LogMessage) : FatalMessage :=
  { message := m, signal_id := SIGABRT, stack_trace := none, kind := .brokenContract }

/-- Modelled from the spec: the fatal record the signal handler synthesizes
for an intercepted OS fatal signal, tagged with the actual signal number and
a best-effort stack trace. -/
def fatalFromSignal (m : LogMessage) (signal_number : Nat) (trace : Option String) :
    FatalMessage :=
  { message := m, signal_id := signal_number, stack_trace := trace, kind := .osSignal }

/-- Modelled from the spec: the pre-logging hook slot, a callable
`void(void)`.  The default does nothing; any other callable is known by an
identifier and its invocation is observed as an effect. -/
inductive PreLoggingHook where
  | doesNothing
  | custom (id : Nat)
deriving DecidableEq

/-- Modelled from the spec: the fatal exit handler slot, a callable
`void(FatalMessagePtr)`.  The default forwards to `pushFatalMessageToLogger`;
any other callable is known by an identifier, its invocation is observed as
an effect, and it returns to its caller. -/
inductive FatalExitHandler where
  | pushFatalMessageToLogger
  | custom (id : Nat)
deriving DecidableEq

/-- Modelled from the spec: the observable effects of the core, in the order
they happen.  A worker fans every record it is handed out to all of its
sinks; sinks receive nothing else. -/
inductive Effect where
  | saved (worker : LogWorker) (m : LogMessage)
  | savedFatal (worker : LogWorker) (m : FatalMessage)
  | flushed (worker : LogWorker)
  | raised (signal : Nat)
  | preHookRan (id : Nat)
  | exitHandlerRan (id : Nat) (m : FatalMessage)
deriving DecidableEq

/-- Modelled from the spec: the process-wide state of the core: the active
logger reference, whether the fatal signal handlers are installed, the two
fatal hook slots, the fatal-in-progress flag, and the effects so far. -/
structure Process where
  active : Option LogWorker
  crashHandlerInstalled : Bool
  preHook : PreLoggingHook
  exitHandler : FatalExitHandler
  fatalInProgress : Bool
  effects : List Effect
deriving DecidableEq

/-- A process at start-up: no logger, default hooks, nothing has happened. -/
def Process.start : Process :=
  { active := none, crashHandlerInstalled := false, preHook := .doesNothing,
    exitHandler := .pushFatalMessageToLogger, fatalInProgress := false, effects := [] }

/-- Modelled from the spec: `void initializeLogging(LogWorker *logger)`
(body in `g2log.cpp`): installs the worker as the sole active instance,
installs the signal handlers, resets the fatal hooks to their defaults. -/
def initializeLogging (p : Process) (logger : LogWorker) : Process :=
  { p with active := some logger, crashHandlerInstalled := true,
           preHook := .doesNothing, exitHandler := .pushFatalMessageToLogger }

/-- Modelled from the spec: `bool isLoggingInitialized()` (body in
`g2log.cpp`): true iff an active instance exists. -/
def isLoggingInitialized (p : Process) : Bool :=
  p.active.isSome

/-- Modelled from the spec: `void shutDownLogging()` (body in `g2log.cpp`):
unconditionally tears down the active instance. -/
def shutDownLogging (p : Process) : Process :=
  { p with active := none }

/-- Modelled from the spec: `bool shutDownLoggingForActiveOnly(LogWorker*
active)` (body in `g2log.cpp`): tears down only if the candidate is
identical to the currently active instance, and returns whether it did. -/
def shutDownLoggingForActiveOnly (p : Process) (active : LogWorker) : Process × Bool :=
  if p.active = some active then (shutDownLogging p, true) else (p, false)

/-- Modelled from the spec: `void pushMessageToLogger(LogMessagePtr
log_entry)` (body in `g2log.cpp`): hands the record to the active worker;
when there is none (already shut down) the record is silently dropped. -/
def pushMessageToLogger (p : Process) (log_entry : LogMessage) : Process :=
  match p.active with
  | some worker => { p with effects := p.effects ++ [.saved worker log_entry] }
  | none => p

/-- Modelled from the spec: how the default fatal exit handler terminates:
by re-raising the original OS signal or, for a contract break, by raising
the abort signal. -/
def terminationSignal (message : FatalMessage) : Nat :=
  match message.kind with
  | .osSignal => message.signal_id
  | .brokenContract => SIGABRT

/-- Modelled from the spec: `void pushFatalMessageToLogger(FatalMessagePtr
message)` (body in `g2log.cpp`), the default fatal exit handler: push the
fatal record to the worker, flush, then terminate. -/
def pushFatalMessageToLogger (p : Process) (message : FatalMessage) : Process :=
  let handed : List Effect :=
    match p.active with
    | some worker => [.savedFatal worker message, .flushed worker]
    | none => []
  { p with effects := p.effects ++ handed ++ [.raised (terminationSignal message)] }

/-- Modelled from the spec: `void setFatalPreLoggingHook(std::function<void(void)>
pre_fatal_hook)` (body in `g2log.cpp`). -/
def setFatalPreLoggingHook (p : Process) (pre_fatal_hook : PreLoggingHook) : Process :=
  { p with preHook := pre_fatal_hook }

/-- Modelled from the spec: `void setFatalExitHandler(std::function<void(FatalMessagePtr)>
fatal_call)` (body in `g2log.cpp`). -/
def setFatalExitHandler (p : Process) (fatal_call : FatalExitHandler) : Process :=
  { p with exitHandler := fatal_call }

/-- Modelled from the spec: the atomic exchange on the fatal-in-progress
flag: sets it and returns what it was. -/
def exchangeFatalFlag (p : Process) : Bool × Process :=
  (p.fatalInProgress, { p with fatalInProgress := true })

/-- Modelled from the spec: invoking the pre-logging hook slot. -/
def runPreLoggingHook (p : Process) : Process :=
  match p.preHook with
  | .doesNothing => p
  | .custom id => { p with effects := p.effects ++ [.preHookRan id] }

/-- Modelled from the spec: invoking the fatal exit handler slot. -/
def runExitHandler (p : Process) (message : FatalMessage) : Process :=
  match p.exitHandler with
  | .pushFatalMessageToLogger => pushFatalMessageToLogger p message
  | .custom id => { p with effects := p.effects ++ [.exitHandlerRan id message] }

/-- Modelled from the spec: the fatal sequence proper: the pre-logging hook,
then the fatal exit handler. -/
def fatalSequence (p : Process) (message : FatalMessage) : Process :=
  runExitHandler (runPreLoggingHook p) message

/-- Modelled from the spec: `void fatalCall(FatalMessagePtr message)` (body
in `g2log.cpp`): the guard (an atomic exchange on the fatal-in-progress
flag), and for the first trigger only the fatal sequence. -/
def fatalCall (p : Process) (message : FatalMessage) : Process :=
  let (inProgress, p1) := exchangeFatalFlag p
  if inProgress then p1 else fatalSequence p1 message

/-- Modelled from the spec: what a `LOG`-family call site does with the
record it constructed: gate check, record construction, push. -/
def runLogSite (p : Process) (site : List SiteEvent) (text : String) : Process :=
  match constructed site with
  | some record => pushMessageToLogger p { capture := record, message := text }
  | none => p

/-- Modelled from the spec: what a `CHECK`-family call site does with the
record it constructed: a failed check enters the fatal path. -/
def runCheckSite (p : Process) (site : List SiteEvent) (text : String) : Process :=
  match constructed site with
  | some record => fatalCall p (fatalFromContract { capture := record, message := text })
  | none => p

/-- How many times a fatal exit handler has run: invocations of a custom
handler, and terminations by the default one. -/
def handlerRuns : List Effect → Nat
  | [] => 0
  | .exitHandlerRan _ _ :: rest => handlerRuns rest + 1
  | .raised _ :: rest => handlerRuns rest + 1
  | _ :: rest => handlerRuns rest

/-- Whether an effect is the invocation of a custom pre-logging hook or of a
custom fatal exit handler. -/
def Effect.isCustomCall : Effect → Bool
  | .preHookRan _ => true
  | .exitHandlerRan _ _ => true
  | _ => false

/-- One operation of the public interface, as a process performs them over
its lifetime. -/
inductive Operation where
  | initializeLogging (logger : LogWorker)
  | shutDownLogging
  | shutDownLoggingForActiveOnly (candidate : LogWorker)
  | setFatalPreLoggingHook (hook : PreLoggingHook)
  | setFatalExitHandler (handler : FatalExitHandler)
  | pushMessageToLogger (m : LogMessage)
  | fatalCall (m : FatalMessage)
deriving DecidableEq

/-- Performs one operation. -/
def Operation.perform (p : Process) : Operation → Process
  | .initializeLogging logger => g2.initializeLogging p logger
  | .shutDownLogging => g2.shutDownLogging p
  | .shutDownLoggingForActiveOnly candidate => (g2.shutDownLoggingForActiveOnly p candidate).1
  | .setFatalPreLoggingHook hook => g2.setFatalPreLoggingHook p hook
  | .setFatalExitHandler handler => g2.setFatalExitHandler p handler
  | .pushMessageToLogger m => g2.pushMessageToLogger p m
  | .fatalCall m => g2.fatalCall p m

/-- Whether an operation is a fatal trigger. -/
def Operation.isFatal : Operation → Bool
  | .fatalCall _ => true
  | _ => false

/-- Modelled from the spec: a thread inside `fatalCall`: before the exchange
on the flag, after having won it (about to run the fatal sequence), or
done. -/
inductive FatalThread where
  | triggered (m : FatalMessage)
  | entered (m : FatalMessage)
  | finished
deriving DecidableEq

/-- Modelled from the spec: threads racing through `fatalCall` over one
process state. -/
structure Racing where
  process : Process
  threads : List FatalThread
deriving DecidableEq

/-- Modelled from the spec: one atomic step of thread `i` inside `fatalCall`:
the exchange on the flag, or (for the thread that won it) the fatal
sequence. -/
def Racing.step (s : Racing) (i : Nat) : Racing :=
  match s.threads[i]? with
  | some (.triggered m) =>
      let (inProgress, p1) := exchangeFatalFlag s.process
      { process := p1,
        threads := s.threads.set i (if inProgress then .finished else .entered m) }
  | some (.entered m) =>
      { process := fatalSequence s.process m, threads := s.threads.set i .finished }
  | _ => s

/-- Runs the threads in the order a schedule picks them. -/
def Racing.run (s : Racing) (schedule : List Nat) : Racing :=
  schedule.foldl Racing.step s

/-- Whether a thread has not done its exchange yet. -/
def FatalThread.isTriggered : FatalThread → Bool
  | .triggered _ => true
  | _ => false

/-- Whether a thread has won the exchange and not yet run the sequence. -/
def FatalThread.isEntered : FatalThread → Bool
  | .entered _ => true
  | _ => false

/-- Whether a thread has left `fatalCall`. -/
def FatalThread.isFinished : FatalThread → Bool
  | .finished => true
  | _ => false


/-- Whether every record construction in a call-site trace comes after a
gate read for the record's level that answered true (`seen` holds the levels
the gate has let through so far). -/
def gatedBefore (seen : List LEVELS) : List SiteEvent → Bool
  | [] => true
  | .gate l enabled :: rest => gatedBefore (if enabled then l :: seen else seen) rest
  | .construct r :: rest => decide (r.level ∈ seen) && gatedBefore seen rest

/-- Whether a condition, pasted after `true ==` without parentheses, is
compared as a whole: it is a single operand of `==` (a literal or variable,
a parenthesised expression, a negation, a relational comparison). -/
def Expr.isEqOperand : Expr → Bool
  | .bin op _ _ => decide (op.prec < BinOp.eq.prec)
  | .cond _ _ _ => false
  | _ => true

/-- The operand `true ==` ends up compared with when the condition is pasted
without parentheses: the leftmost operand under the operators that bind no
tighter than `==`. -/
def Expr.leftOperand : Expr → Expr
  | .bin op l r => if op.prec < BinOp.eq.prec then .bin op l r else l.leftOperand
  | .cond c _ _ => c.leftOperand
  | e => e

/-! ### Example inputs -/

/-- An example level. -/
def exampleInfo : LEVELS := { value := 1, text := "INFO" }

/-- Another example level. -/
def exampleWarning : LEVELS := { value := 2, text := "WARNING" }

/-- An example contract pseudo-level. -/
def exampleContract : LEVELS := { value := 1000, text := "CONTRACT" }

/-- A gate with every level enabled. -/
def gateAllOn : LevelEnv := { logLevel := fun _ => true, CONTRACT := exampleContract }

/-- A gate with every level disabled. -/
def gateAllOff : LevelEnv := { logLevel := fun _ => false, CONTRACT := exampleContract }

/-- A gate with only `exampleInfo` disabled. -/
def gateInfoOff : LevelEnv :=
  { logLevel := fun l => decide (l ≠ exampleInfo), CONTRACT := exampleContract }

/-- An example call site. -/
def exampleSite : CallSite := { file := "main.cpp", line := 42, function := "int main()" }

/-- An integer literal. -/
def intLit (n : Int) : Expr := .lit (.int n)

/-- The argument of `CHECK(1 == 2)`. -/
def oneEqTwo : CondArg := { text := "1 == 2", expr := .bin .eq (intLit 1) (intLit 2) }

/-- The argument of `CHECK(1 == 1)`. -/
def oneEqOne : CondArg := { text := "1 == 1", expr := .bin .eq (intLit 1) (intLit 1) }

/-- The condition `2 || 0`: a `bool` expression whose value is true. -/
def twoOrZero : CondArg := { text := "2 || 0", expr := .bin .lor (intLit 2) (intLit 0) }

/-- The condition `2 | 1`: an `int` expression whose value is 3. -/
def twoBitorOne : CondArg := { text := "2 | 1", expr := .bin .bor (intLit 2) (intLit 1) }

/-- The condition `3 & 1`: an `int` expression whose value is 1. -/
def threeBitandOne : CondArg := { text := "3 & 1", expr := .bin .band (intLit 3) (intLit 1) }

/-- The condition `2`. -/
def justTwo : CondArg := { text := "2", expr := intLit 2 }

/-- The condition `1`. -/
def justOne : CondArg := { text := "1", expr := intLit 1 }

/-- The condition `x == 5` at a moment when `x` is 5: true. -/
def xEqFive : CondArg := { text := "x == 5", expr := .bin .eq (intLit 5) (intLit 5) }

/-- The condition `count == 0` at a moment when `count` is 2: false. -/
def countEqZero : CondArg := { text := "count == 0", expr := .bin .eq (intLit 2) (intLit 0) }

/-- An example worker. -/
def workerA : LogWorker := { id := 1 }

/-- A second, distinct example worker. -/
def workerB : LogWorker := { id := 2 }

/-- An example log record. -/
def exampleMessage : LogMessage :=
  { capture := INTERNAL_LOG_MESSAGE exampleSite exampleInfo, message := "hello" }

/-- The fatal record of the broken contract `CHECK(1 == 2)`. -/
def brokenOneEqTwo : FatalMessage :=
  fatalFromContract
    { capture := INTERNAL_CONTRACT_MESSAGE gateAllOn exampleSite "1 == 2", message := "" }

/-- The fatal record of an intercepted segmentation violation (signal 11). -/
def segvRecord : FatalMessage :=
  fatalFromSignal exampleMessage 11 none

/-- A process with `workerA` active, default hooks, nothing logged yet. -/
def runningA : Process := initializeLogging Process.start workerA

/-- A process with `workerA` active and a counting fatal exit handler
(custom handler 7) installed. -/
def countingA : Process := setFatalExitHandler runningA (.custom 7)

/-- A process lifetime with two broken contracts under a counting handler. -/
def twoFatalOperations : List Operation :=
  [.initializeLogging workerA, .setFatalExitHandler (.custom 7),
   .fatalCall brokenOneEqTwo, .pushMessageToLogger exampleMessage, .fatalCall segvRecord]

/-- Two threads that trigger a fatal condition at the same time, under a
counting handler. -/
def twoRacing : Racing :=
  { process := countingA, threads := [brokenOneEqTwo, segvRecord].map .triggered }

/-- A value converts to true exactly when its integer promotion is not 0. -/
theorem Val.truthy_eq (v : Val) : v.truthy = decide (v.toInt ≠ 0) := by
  cases v with
  | bool b => cases b <;> simp [Val.truthy, Val.toInt]
  | int n => simp [Val.truthy, Val.toInt]

/-- The condition `false == (e)` holds exactly when `e` converts to false. -/
theorem expandFalseEq_truthy (e : Expr) :
    (expandFalseEq e).eval.truthy = !e.eval.truthy := by
  show (Val.bool (decide ((Val.bool false).toInt = e.eval.toInt))).truthy = !e.eval.truthy
  rw [Val.truthy_eq e.eval]
  generalize e.eval.toInt = n
  simp [Val.truthy, Val.toInt, eq_comm]

/-- A single operand of `==` is compared as a whole by `true == e`. -/
theorem expandTrueEq_of_isEqOperand (e : Expr) (h : e.isEqOperand = true) :
    expandTrueEq e = .bin .eq (.lit (.bool true)) e := by
  cases e with
  | bin op l r =>
      have h2 : op.prec < BinOp.eq.prec := by simpa [Expr.isEqOperand] using h
      simp [expandTrueEq, h2]
  | cond c t e => simp [Expr.isEqOperand] at h
  | lit v => rfl
  | paren e => rfl
  | lnot e => rfl

/-- The condition `true == e`, for a single operand, holds exactly when the
promoted value of `e` is 1. -/
theorem expandTrueEq_truthy_of_isEqOperand (e : Expr) (h : e.isEqOperand = true) :
    (expandTrueEq e).eval.truthy = decide (e.eval.toInt = 1) := by
  rw [expandTrueEq_of_isEqOperand e h]
  show (Val.bool (decide ((Val.bool true).toInt = e.eval.toInt))).truthy = _
  generalize e.eval.toInt = n
  simp [Val.truthy, Val.toInt, eq_comm]


/-- A binary operation uses its left operand through its promoted value
only. -/
theorem BinOp.apply_congr_left (op : BinOp) (a a2 b : Val) (h : a.toInt = a2.toInt) :
    op.apply a b = op.apply a2 b := by
  cases op <;> simp [BinOp.apply, Val.truthy_eq, h]

/-- The conditional operator uses its condition through its promoted value
only. -/
theorem condValue_congr (c c2 t e : Val) (h : c.toInt = c2.toInt) :
    condValue c t e = condValue c2 t e := by
  simp [condValue, Val.truthy_eq, h]

/-- Comparing a value that is 0 or 1 with `true` gives that value back. -/
theorem trueEq_toInt (v : Val) (h : v.toInt = 0 ∨ v.toInt = 1) :
    (BinOp.apply .eq (.bool true) v).toInt = v.toInt := by
  show (Val.bool (decide ((Val.bool true).toInt = v.toInt))).toInt = v.toInt
  generalize v.toInt = n at h
  rcases h with h | h <;> subst h <;> simp [Val.toInt]

/-- When the operand that `true ==` lands on has value 0 or 1 (every `bool`
operand has), pasting the condition without parentheses does not change its
value. -/
theorem expandTrueEq_toInt (e : Expr)
    (h : e.leftOperand.eval.toInt = 0 ∨ e.leftOperand.eval.toInt = 1) :
    (expandTrueEq e).eval.toInt = e.eval.toInt := by
  induction e with
  | lit v => exact trueEq_toInt _ h
  | paren e _ => exact trueEq_toInt (Expr.paren e).eval h
  | lnot e _ => exact trueEq_toInt (Expr.lnot e).eval h
  | bin op l r ihl _ =>
      by_cases hp : op.prec < BinOp.eq.prec
      · simp only [Expr.leftOperand, hp, if_true] at h
        simp only [expandTrueEq, hp, if_true]
        exact trueEq_toInt (Expr.bin op l r).eval h
      · simp only [Expr.leftOperand, hp, if_false] at h
        simp only [expandTrueEq, hp, if_false, Expr.eval]
        rw [BinOp.apply_congr_left op _ _ _ (ihl h)]
  | cond c t e ihc _ _ =>
      simp only [Expr.leftOperand] at h
      simp only [expandTrueEq, Expr.eval]
      rw [condValue_congr _ _ _ _ (ihc h)]

/-- With a `bool`-valued left operand, `true == condition` holds exactly
when the condition converts to true. -/
theorem expandTrueEq_truthy_of_bool_left (e : Expr) (b : Bool)
    (h : e.leftOperand.eval = .bool b) :
    (expandTrueEq e).eval.truthy = e.eval.truthy := by
  have h2 : e.leftOperand.eval.toInt = 0 ∨ e.leftOperand.eval.toInt = 1 := by
    rw [h]; cases b <;> simp [Val.toInt]
  rw [Val.truthy_eq, Val.truthy_eq, expandTrueEq_toInt e h2]

/-! ### Call sites -/

/-- The record of a trace that is a gate read followed by a construction. -/
theorem constructed_gate_construct (l : LEVELS) (b : Bool) (r : LogCapture) :
    constructed [.gate l b, .construct r] = some r := rfl

/-- C1: `LOG(L)` and `LOGF(L, ...)` construct a log record if and only if
the level gate `g2::logLevel(L)` returns true; when the gate returns false
no record is constructed and the call leaves the process as it was (nothing
is handed to a worker, hence to a sink); and a gate that answers the same
for `L`, whatever it answers for other levels, gives the same result for
`L`. -/
theorem LOG_constructs_iff_gate (env : LevelEnv) (site : CallSite) (level : LEVELS) :
    ((constructed (LOG env site level)).isSome = true ↔ env.logLevel level = true) ∧
    ((constructed (LOGF env site level)).isSome = true ↔ env.logLevel level = true) ∧
    (env.logLevel level = true →
      constructed (LOG env site level) = some (INTERNAL_LOG_MESSAGE site level) ∧
      constructed (LOGF env site level) = some (INTERNAL_LOG_MESSAGE site level)) ∧
    (env.logLevel level = false →
      constructed (LOG env site level) = none ∧
      constructed (LOGF env site level) = none ∧
      ∀ (p : Process) (text : String),
        runLogSite p (LOG env site level) text = p ∧
        runLogSite p (LOGF env site level) text = p) ∧
    (∀ other : LevelEnv, other.logLevel level = env.logLevel level →
      constructed (LOG other site level) = constructed (LOG env site level) ∧
      constructed (LOGF other site level) = constructed (LOGF env site level)) := by
  cases h : env.logLevel level
  · refine ⟨?_, ?_, ?_, ?_, ?_⟩
    · simp [LOG, h, constructed]
    · simp [LOGF, h, constructed]
    · intro h2; cases h2
    · intro _
      refine ⟨by simp [LOG, h, constructed], by simp [LOGF, h, constructed], ?_⟩
      intro p text
      simp [runLogSite, LOG, LOGF, h, constructed]
    · intro other ho
      simp [LOG, LOGF, h, ho, constructed]
  · refine ⟨?_, ?_, ?_, ?_, ?_⟩
    · simp [LOG, h, constructed]
    · simp [LOGF, h, constructed]
    · intro _
      simp [LOG, LOGF, h, constructed]
    · intro h2; cases h2
    · intro other ho
      simp [LOG, LOGF, h, ho, constructed]

/-- Witness for C1: with only `exampleInfo` disabled, `LOG(exampleInfo)`
constructs nothing and changes nothing, while `LOG(exampleWarning)` still
constructs its record. -/
theorem LOG_constructs_iff_gate_witness :
    gateInfoOff.logLevel exampleInfo = false ∧
    constructed (LOG gateInfoOff exampleSite exampleInfo) = none ∧
    runLogSite Process.start (LOG gateInfoOff exampleSite exampleInfo) "a" = Process.start ∧
    gateInfoOff.logLevel exampleWarning = true ∧
    constructed (LOG gateInfoOff exampleSite exampleWarning)
      = some (INTERNAL_LOG_MESSAGE exampleSite exampleWarning) ∧
    constructed (LOG gateAllOn exampleSite exampleWarning)
      = constructed (LOG gateInfoOff exampleSite exampleWarning) :=
  have disabled : gateInfoOff.logLevel exampleInfo = false := by decide
  have enabled : gateInfoOff.logLevel exampleWarning = true := by decide
  ⟨disabled,
   ((LOG_constructs_iff_gate gateInfoOff exampleSite exampleInfo).2.2.2.1 disabled).1,
   (((LOG_constructs_iff_gate gateInfoOff exampleSite exampleInfo).2.2.2.1 disabled).2.2
      Process.start "a").1,
   enabled,
   ((LOG_constructs_iff_gate gateInfoOff exampleSite exampleWarning).2.2.1 enabled).1,
   ((LOG_constructs_iff_gate gateInfoOff exampleSite exampleWarning).2.2.2.2 gateAllOn
      (by decide)).1⟩

/-- C2: `CHECK(e)` and `CHECK_F(e, ...)` construct a record if and only if
`e` evaluates to false; the record has level `CONTRACT` and carries the text
of `e` as its boolean expression; when `e` evaluates to true no record is
constructed and the process is left as it was (the fatal path is not
entered). -/
theorem CHECK_constructs_iff_false (env : LevelEnv) (site : CallSite) (e : CondArg) :
    ((constructed (CHECK env site e)).isSome = true ↔ e.expr.eval.truthy = false) ∧
    ((constructed (CHECK_F env site e)).isSome = true ↔ e.expr.eval.truthy = false) ∧
    (∀ r : LogCapture,
      constructed (CHECK env site e) = some r ∨ constructed (CHECK_F env site e) = some r →
      r.level = env.CONTRACT ∧ r.expression = e.text ∧
      r.file = site.file ∧ r.line = site.line ∧ r.function = site.function) ∧
    (e.expr.eval.truthy = true →
      constructed (CHECK env site e) = none ∧
      constructed (CHECK_F env site e) = none ∧
      ∀ (p : Process) (text : String),
        runCheckSite p (CHECK env site e) text = p ∧
        runCheckSite p (CHECK_F env site e) text = p) := by
  have hc := expandFalseEq_truthy e.expr
  cases h : e.expr.eval.truthy
  · rw [h] at hc
    refine ⟨?_, ?_, ?_, ?_⟩
    · simp [CHECK, hc, constructed]
    · simp [CHECK_F, hc, constructed]
    · intro r hr
      simp only [CHECK, CHECK_F, hc, if_true, constructed, or_self, Option.some.injEq] at hr
      subst hr
      simp [INTERNAL_CONTRACT_MESSAGE]
    · intro h2; cases h2
  · rw [h] at hc
    refine ⟨?_, ?_, ?_, ?_⟩
    · simp [CHECK, hc, constructed]
    · simp [CHECK_F, hc, constructed]
    · intro r hr
      simp [CHECK, CHECK_F, hc, constructed] at hr
    · intro _
      refine ⟨by simp [CHECK, hc, constructed], by simp [CHECK_F, hc, constructed], ?_⟩
      intro p text
      simp [runCheckSite, CHECK, CHECK_F, hc, constructed]

/-- Witness for C2: `CHECK(1 == 2)` constructs a record of level `CONTRACT`
with the text "1 == 2"; `CHECK(1 == 1)` constructs none and leaves the
process untouched. -/
theorem CHECK_constructs_iff_false_witness :
    (∃ r, constructed (CHECK gateAllOn exampleSite oneEqTwo) = some r ∧
      r.level = exampleContract ∧ r.expression = "1 == 2") ∧
    oneEqOne.expr.eval.truthy = true ∧
    constructed (CHECK gateAllOn exampleSite oneEqOne) = none ∧
    runCheckSite Process.start (CHECK gateAllOn exampleSite oneEqOne) "" = Process.start :=
  have pass : oneEqOne.expr.eval.truthy = true := by decide
  have built : constructed (CHECK gateAllOn exampleSite oneEqTwo)
      = some (INTERNAL_CONTRACT_MESSAGE gateAllOn exampleSite "1 == 2") := by decide
  ⟨⟨_, built,
     ((CHECK_constructs_iff_false gateAllOn exampleSite oneEqTwo).2.2.1 _ (Or.inl built)).1,
     ((CHECK_constructs_iff_false gateAllOn exampleSite oneEqTwo).2.2.1 _ (Or.inl built)).2.1⟩,
   pass,
   ((CHECK_constructs_iff_false gateAllOn exampleSite oneEqOne).2.2.2 pass).1,
   (((CHECK_constructs_iff_false gateAllOn exampleSite oneEqOne).2.2.2 pass).2.2
      Process.start "").1⟩


/-- Where `LOG_IF` and `LOGF_IF` do follow their condition: when the operand
that `true ==` lands on is a `bool`, a record is constructed if and only if
the condition is true and the gate lets the level through. -/
theorem LOG_IF_iff_of_bool_left (env : LevelEnv) (site : CallSite) (level : LEVELS)
    (c : CondArg) (b : Bool) (h : c.expr.leftOperand.eval = .bool b) :
    ((constructed (LOG_IF env site level c)).isSome = true ↔
      c.expr.eval.truthy = true ∧ env.logLevel level = true) ∧
    ((constructed (LOGF_IF env site level c)).isSome = true ↔
      c.expr.eval.truthy = true ∧ env.logLevel level = true) := by
  have hc := expandTrueEq_truthy_of_bool_left c.expr b h
  cases hv : c.expr.eval.truthy <;> cases hg : env.logLevel level <;>
    simp [LOG_IF, LOGF_IF, hc, hv, hg, constructed]

/-- The scenario `CHECK(1 == 2)` under a custom fatal exit handler: the
handler receives a fatal record of level `CONTRACT` with the text "1 == 2"
and signal `SIGABRT`, and the process is not terminated. -/
theorem CHECK_under_custom_handler :
    (runCheckSite countingA (CHECK gateAllOn exampleSite oneEqTwo) "").effects
      = [.exitHandlerRan 7 brokenOneEqTwo] ∧
    brokenOneEqTwo.message.capture.expression = "1 == 2" ∧
    brokenOneEqTwo.message.capture.level = gateAllOn.CONTRACT ∧
    brokenOneEqTwo.signal_id = SIGABRT := by
  decide

/-- C7 (the code at the failing inputs): with every level enabled,
`LOG_IF(level, x == 5)` with `x` equal to 5 has a true condition and
constructs no record (so does `2 || 0`), and `LOG_IF(level, count == 0)`
with `count` equal to 2 has a false condition and constructs a record;
`LOGF_IF` does the same. -/
theorem LOG_IF_departs_from_condition :
    gateAllOn.logLevel exampleInfo = true ∧
    xEqFive.expr.eval.truthy = true ∧
    constructed (LOG_IF gateAllOn exampleSite exampleInfo xEqFive) = none ∧
    constructed (LOGF_IF gateAllOn exampleSite exampleInfo xEqFive) = none ∧
    twoOrZero.expr.eval = .bool true ∧
    constructed (LOG_IF gateAllOn exampleSite exampleInfo twoOrZero) = none ∧
    constructed (LOGF_IF gateAllOn exampleSite exampleInfo twoOrZero) = none ∧
    countEqZero.expr.eval.truthy = false ∧
    constructed (LOG_IF gateAllOn exampleSite exampleInfo countEqZero)
      = some (INTERNAL_LOG_MESSAGE exampleSite exampleInfo) ∧
    constructed (LOGF_IF gateAllOn exampleSite exampleInfo countEqZero)
      = some (INTERNAL_LOG_MESSAGE exampleSite exampleInfo) := by
  decide

/-- C8 (counterexample): with the gate disabled for every level, `CONTRACT`
included, `CHECK(1 == 2)` and `CHECK_F(1 == 2, ...)` never consult the gate
and still construct their record. -/
theorem CHECK_constructs_with_gate_off :
    gateAllOff.logLevel gateAllOff.CONTRACT = false ∧
    gateReads (CHECK gateAllOff exampleSite oneEqTwo) = [] ∧
    gateReads (CHECK_F gateAllOff exampleSite oneEqTwo) = [] ∧
    constructed (CHECK gateAllOff exampleSite oneEqTwo)
      = some (INTERNAL_CONTRACT_MESSAGE gateAllOff exampleSite "1 == 2") ∧
    constructed (CHECK_F gateAllOff exampleSite oneEqTwo)
      = some (INTERNAL_CONTRACT_MESSAGE gateAllOff exampleSite "1 == 2") := by
  decide

/-- C8 (amended): `LOG`, `LOG_IF`, `LOGF` and `LOGF_IF` resolve to a gate
check followed by record construction: `LOG` and `LOGF` consult
`g2::logLevel` exactly once, for their level; `LOG_IF` and `LOGF_IF` consult
it exactly once, for their level, when their condition test succeeded and
not at all when it failed; every record they construct comes after a read of
the gate for the record's level that answered true; a record is constructed
exactly when the gate was consulted and answered true, and none when the
gate answers false.  `CHECK` and `CHECK_F` never consult the gate: whether
they construct their record depends on the condition alone, whatever the
gate answers. -/
theorem call_sites_gate_discipline (env : LevelEnv) (site : CallSite) (level : LEVELS)
    (c : CondArg) :
    (gatedBefore [] (LOG env site level) = true ∧
     gatedBefore [] (LOG_IF env site level c) = true ∧
     gatedBefore [] (LOGF env site level) = true ∧
     gatedBefore [] (LOGF_IF env site level c) = true) ∧
    (env.logLevel level = false →
      constructed (LOG env site level) = none ∧
      constructed (LOG_IF env site level c) = none ∧
      constructed (LOGF env site level) = none ∧
      constructed (LOGF_IF env site level c) = none) ∧
    (∀ r : LogCapture,
      constructed (LOG env site level) = some r ∨
      constructed (LOG_IF env site level c) = some r ∨
      constructed (LOGF env site level) = some r ∨
      constructed (LOGF_IF env site level c) = some r →
      r.level = level ∧ env.logLevel level = true) ∧
    (gateReads (CHECK env site c) = [] ∧ gateReads (CHECK_F env site c) = []) ∧
    (∀ other : LevelEnv, other.CONTRACT = env.CONTRACT →
      CHECK other site c = CHECK env site c ∧ CHECK_F other site c = CHECK_F env site c) ∧
    ((constructed (CHECK env site c)).isSome = !c.expr.eval.truthy ∧
     (constructed (CHECK_F env site c)).isSome = !c.expr.eval.truthy) ∧
    (gateReads (LOG env site level) = [level] ∧
     gateReads (LOGF env site level) = [level] ∧
     gateReads (LOG_IF env site level c)
       = (if (expandTrueEq c.expr).eval.truthy then [level] else []) ∧
     gateReads (LOGF_IF env site level c)
       = (if (expandTrueEq c.expr).eval.truthy then [level] else [])) ∧
    (LOG env site level
       = .gate level (env.logLevel level) ::
         (if env.logLevel level then [.construct (INTERNAL_LOG_MESSAGE site level)] else []) ∧
     LOGF env site level
       = .gate level (env.logLevel level) ::
         (if env.logLevel level then [.construct (INTERNAL_LOG_MESSAGE site level)] else []) ∧
     LOG_IF env site level c
       = (if (expandTrueEq c.expr).eval.truthy then LOG env site level else []) ∧
     LOGF_IF env site level c
       = (if (expandTrueEq c.expr).eval.truthy then LOGF env site level else [])) ∧
    ((constructed (LOG env site level)).isSome = env.logLevel level ∧
     (constructed (LOGF env site level)).isSome = env.logLevel level ∧
     (constructed (LOG_IF env site level c)).isSome
       = ((expandTrueEq c.expr).eval.truthy && env.logLevel level) ∧
     (constructed (LOGF_IF env site level c)).isSome
       = ((expandTrueEq c.expr).eval.truthy && env.logLevel level)) := by
  have hf := expandFalseEq_truthy c.expr
  refine ⟨?_, ?_, ?_, ?_, ?_, ?_, ?_, ?_, ?_⟩
  · cases hg : env.logLevel level <;>
      cases ht : (expandTrueEq c.expr).eval.truthy <;>
      simp [LOG, LOG_IF, LOGF, LOGF_IF, hg, ht, gatedBefore, INTERNAL_LOG_MESSAGE]
  · intro hg
    cases ht : (expandTrueEq c.expr).eval.truthy <;>
      simp [LOG, LOG_IF, LOGF, LOGF_IF, hg, ht, constructed]
  · intro r hr
    cases hg : env.logLevel level <;>
      cases ht : (expandTrueEq c.expr).eval.truthy <;>
      simp [LOG, LOG_IF, LOGF, LOGF_IF, hg, ht, constructed] at hr
    all_goals simp [← hr, INTERNAL_LOG_MESSAGE]
  · cases hv : c.expr.eval.truthy <;>
      simp [CHECK, CHECK_F, hf, hv, gateReads]
  · intro other ho
    simp [CHECK, CHECK_F, INTERNAL_CONTRACT_MESSAGE, ho]
  · cases hv : c.expr.eval.truthy <;>
      simp [CHECK, CHECK_F, hf, hv, constructed]
  · cases hg : env.logLevel level <;>
      cases ht : (expandTrueEq c.expr).eval.truthy <;>
      simp [LOG, LOG_IF, LOGF, LOGF_IF, hg, ht, gateReads]
  · cases hg : env.logLevel level <;>
      cases ht : (expandTrueEq c.expr).eval.truthy <;>
      simp [LOG, LOG_IF, LOGF, LOGF_IF, hg, ht]
  · cases hg : env.logLevel level <;>
      cases ht : (expandTrueEq c.expr).eval.truthy <;>
      simp [LOG, LOG_IF, LOGF, LOGF_IF, hg, ht, constructed]

/-- Witness for C8 (amended): with the gate off, `LOG` and `LOG_IF`
construct nothing; `CHECK(1 == 2)` behaves the same under two gates that
share the contract level. -/
theorem call_sites_gate_discipline_witness :
    gateAllOff.logLevel exampleInfo = false ∧
    constructed (LOG gateAllOff exampleSite exampleInfo) = none ∧
    constructed (LOG_IF gateAllOff exampleSite exampleInfo justOne) = none ∧
    CHECK gateAllOff exampleSite oneEqTwo = CHECK gateAllOn exampleSite oneEqTwo :=
  have disabled : gateAllOff.logLevel exampleInfo = false := by decide
  ⟨disabled,
   ((call_sites_gate_discipline gateAllOff exampleSite exampleInfo justOne).2.1 disabled).1,
   ((call_sites_gate_discipline gateAllOff exampleSite exampleInfo justOne).2.1 disabled).2.1,
   ((call_sites_gate_discipline gateAllOn exampleSite exampleInfo oneEqTwo).2.2.2.2.1
      gateAllOff rfl).1⟩

/-- C10 (counterexample): with every level enabled, the integer-valued
condition `2 | 1` has value 3 and `LOG_IF` constructs a record for it, while
the integer-valued condition `3 & 1` has value 1 and `LOG_IF` constructs
none. -/
theorem LOG_IF_integer_condition_not_iff_one :
    gateAllOn.logLevel exampleInfo = true ∧
    twoBitorOne.expr.eval = .int 3 ∧
    constructed (LOG_IF gateAllOn exampleSite exampleInfo twoBitorOne)
      = some (INTERNAL_LOG_MESSAGE exampleSite exampleInfo) ∧
    constructed (LOGF_IF gateAllOn exampleSite exampleInfo twoBitorOne)
      = some (INTERNAL_LOG_MESSAGE exampleSite exampleInfo) ∧
    threeBitandOne.expr.eval = .int 1 ∧
    constructed (LOG_IF gateAllOn exampleSite exampleInfo threeBitandOne) = none ∧
    constructed (LOGF_IF gateAllOn exampleSite exampleInfo threeBitandOne) = none := by
  decide

/-- C10 (amended): `LOG_IF` and `LOGF_IF` test `true == condition` with the
condition not parenthesised; for an integer-valued condition that is a
single operand of `==` (a literal or variable, a parenthesised expression),
with value `n`, and an enabled level, a record is constructed if and only
if `n` equals 1.  `CHECK` and `CHECK_F`, which test `false == (condition)`,
construct nothing for any integer-valued condition whose value is not 0. -/
theorem LOG_IF_integer_operand_iff_one (env : LevelEnv) (site : CallSite)
    (level : LEVELS) (c : CondArg) (n : Int)
    (hgate : env.logLevel level = true) (hval : c.expr.eval = .int n) :
    (c.expr.isEqOperand = true →
      ((constructed (LOG_IF env site level c)).isSome = true ↔ n = 1) ∧
      ((constructed (LOGF_IF env site level c)).isSome = true ↔ n = 1)) ∧
    (n ≠ 0 →
      constructed (CHECK env site c) = none ∧ constructed (CHECK_F env site c) = none) := by
  constructor
  · intro hop
    have ht := expandTrueEq_truthy_of_isEqOperand c.expr hop
    rw [hval] at ht
    simp only [Val.toInt] at ht
    by_cases h1 : n = 1
    · simp [LOG_IF, LOGF_IF, ht, h1, hgate, constructed]
    · simp [LOG_IF, LOGF_IF, ht, h1, constructed]
  · intro hn
    have hf := expandFalseEq_truthy c.expr
    have hz : (expandFalseEq c.expr).eval.truthy = false := by
      rw [hf, hval]; simp [Val.truthy, hn]
    simp [CHECK, CHECK_F, hz, constructed]

/-- Witness for C10 (amended): with every level enabled, `LOG_IF(level, 2)`
constructs no record, `LOG_IF(level, 1)` constructs one, and `CHECK(2)`
passes. -/
theorem LOG_IF_integer_operand_iff_one_witness :
    gateAllOn.logLevel exampleInfo = true ∧
    justTwo.expr.eval = .int 2 ∧ justTwo.expr.isEqOperand = true ∧
    ((constructed (LOG_IF gateAllOn exampleSite exampleInfo justTwo)).isSome = true ↔
      (2 : Int) = 1) ∧
    ((constructed (LOG_IF gateAllOn exampleSite exampleInfo justOne)).isSome = true ↔
      (1 : Int) = 1) ∧
    constructed (CHECK gateAllOn exampleSite justTwo) = none :=
  ⟨rfl, rfl, rfl,
   ((LOG_IF_integer_operand_iff_one gateAllOn exampleSite exampleInfo justTwo 2 rfl rfl).1
      rfl).1,
   ((LOG_IF_integer_operand_iff_one gateAllOn exampleSite exampleInfo justOne 1 rfl rfl).1
      rfl).1,
   ((LOG_IF_integer_operand_iff_one gateAllOn exampleSite exampleInfo justTwo 2 rfl rfl).2
      (by decide)).1⟩


/-! ### Lifecycle registry -/

/-- C3: `shutDownLoggingForActiveOnly(candidate)` tears logging down and
returns true if and only if the candidate is the currently active worker,
and otherwise changes nothing; for distinct workers `older` and `newer`,
after `initializeLogging(older)` then `initializeLogging(newer)`,
`shutDownLoggingForActiveOnly(older)` returns false and leaves the registry
unchanged: `newer` is still active and logging is still initialized. -/
theorem shutDownLoggingForActiveOnly_identity (p : Process) (candidate : LogWorker) :
    ((shutDownLoggingForActiveOnly p candidate).2 = true ↔ p.active = some candidate) ∧
    ((shutDownLoggingForActiveOnly p candidate).2 = true →
      (shutDownLoggingForActiveOnly p candidate).1 = shutDownLogging p ∧
      isLoggingInitialized (shutDownLoggingForActiveOnly p candidate).1 = false) ∧
    ((shutDownLoggingForActiveOnly p candidate).2 = false →
      (shutDownLoggingForActiveOnly p candidate).1 = p) ∧
    (∀ older newer : LogWorker, older ≠ newer →
      shutDownLoggingForActiveOnly (initializeLogging (initializeLogging p older) newer) older
        = (initializeLogging (initializeLogging p older) newer, false) ∧
      (initializeLogging (initializeLogging p older) newer).active = some newer ∧
      isLoggingInitialized (initializeLogging (initializeLogging p older) newer) = true) := by
  refine ⟨?_, ?_, ?_, ?_⟩
  · by_cases h : p.active = some candidate <;> simp [shutDownLoggingForActiveOnly, h]
  · by_cases h : p.active = some candidate <;>
      simp [shutDownLoggingForActiveOnly, h, shutDownLogging, isLoggingInitialized]
  · by_cases h : p.active = some candidate <;> simp [shutDownLoggingForActiveOnly, h]
  · intro older newer hne
    have h : ¬ (newer = older) := fun h2 => hne h2.symm
    simp [shutDownLoggingForActiveOnly, initializeLogging, isLoggingInitialized, h]

/-- Witness for C3: with `workerA` replaced by `workerB`, a guarded shutdown
for `workerA` returns false and `workerB` stays active; a guarded shutdown
for `workerB` returns true and tears logging down. -/
theorem shutDownLoggingForActiveOnly_identity_witness :
    workerA ≠ workerB ∧
    (shutDownLoggingForActiveOnly (initializeLogging runningA workerB) workerA).2 = false ∧
    (shutDownLoggingForActiveOnly (initializeLogging runningA workerB) workerA).1.active
      = some workerB ∧
    (shutDownLoggingForActiveOnly (initializeLogging runningA workerB) workerB).2 = true ∧
    isLoggingInitialized
      (shutDownLoggingForActiveOnly (initializeLogging runningA workerB) workerB).1 = false :=
  have distinct : workerA ≠ workerB := by decide
  have stale := (shutDownLoggingForActiveOnly_identity Process.start workerA).2.2.2
    workerA workerB distinct
  have live : (shutDownLoggingForActiveOnly (initializeLogging runningA workerB) workerB).2
      = true :=
    (shutDownLoggingForActiveOnly_identity (initializeLogging runningA workerB) workerB).1.2 rfl
  ⟨distinct, congrArg Prod.snd stale.1, (congrArg Prod.fst stale.1) ▸ stale.2.1, live,
   ((shutDownLoggingForActiveOnly_identity (initializeLogging runningA workerB) workerB).2.1
      live).2⟩

/-- C5: after `shutDownLogging()`, logging is not initialized, and any
number of later pushes (`pushMessageToLogger`, and every `LOG`-family call,
whatever the gate answers) leave the process exactly as the shutdown left
it: nothing is handed to a worker, so nothing reaches a sink, and the
registry stays shut down. -/
theorem push_after_shutDownLogging_is_noop (p : Process) (ms : List LogMessage) :
    isLoggingInitialized (shutDownLogging p) = false ∧
    ms.foldl pushMessageToLogger (shutDownLogging p) = shutDownLogging p ∧
    (ms.foldl pushMessageToLogger (shutDownLogging p)).effects = p.effects ∧
    isLoggingInitialized (ms.foldl pushMessageToLogger (shutDownLogging p)) = false ∧
    (∀ (env : LevelEnv) (site : CallSite) (level : LEVELS) (c : CondArg) (text : String),
      runLogSite (shutDownLogging p) (LOG env site level) text = shutDownLogging p ∧
      runLogSite (shutDownLogging p) (LOGF env site level) text = shutDownLogging p ∧
      runLogSite (shutDownLogging p) (LOG_IF env site level c) text = shutDownLogging p ∧
      runLogSite (shutDownLogging p) (LOGF_IF env site level c) text = shutDownLogging p) := by
  have hfold : ms.foldl pushMessageToLogger (shutDownLogging p) = shutDownLogging p := by
    induction ms with
    | nil => rfl
    | cons m rest ih =>
        have h1 : pushMessageToLogger (shutDownLogging p) m = shutDownLogging p := rfl
        rw [List.foldl_cons, h1, ih]
  have hsite : ∀ (t : List SiteEvent) (text : String),
      runLogSite (shutDownLogging p) t text = shutDownLogging p := by
    intro t text
    unfold runLogSite
    cases constructed t <;> rfl
  refine ⟨rfl, hfold, ?_, ?_, ?_⟩
  · rw [hfold]; rfl
  · rw [hfold]; rfl
  · intro env site level c text
    exact ⟨hsite _ _, hsite _ _, hsite _ _, hsite _ _⟩


/-! ### Fatal path -/

/-- A fatal call that finds the flag set changes nothing. -/
theorem fatalCall_of_inProgress (p : Process) (m : FatalMessage)
    (h : p.fatalInProgress = true) : fatalCall p m = p := by
  cases p
  simp only at h
  subst h
  rfl

/-- A fatal call that finds the flag clear sets it and runs the fatal
sequence. -/
theorem fatalCall_of_first (p : Process) (m : FatalMessage)
    (h : p.fatalInProgress = false) :
    fatalCall p m = fatalSequence { p with fatalInProgress := true } m := by
  simp [fatalCall, exchangeFatalFlag, h]

/-- The fatal sequence leaves the flag as it found it. -/
theorem fatalSequence_fatalInProgress (p : Process) (m : FatalMessage) :
    (fatalSequence p m).fatalInProgress = p.fatalInProgress := by
  unfold fatalSequence runExitHandler runPreLoggingHook pushFatalMessageToLogger
  cases p.preHook <;> cases p.exitHandler <;> rfl

/-- After a fatal call the flag is set. -/
theorem fatalCall_fatalInProgress (p : Process) (m : FatalMessage) :
    (fatalCall p m).fatalInProgress = true := by
  cases h : p.fatalInProgress
  · rw [fatalCall_of_first p m h, fatalSequence_fatalInProgress]
  · rw [fatalCall_of_inProgress p m h, h]

/-- C6: `initializeLogging` resets both fatal hooks to their defaults:
whatever pre-logging hook `f` and exit handler `h` were installed before,
after `initializeLogging(worker)` the pre-logging hook is the one that does
nothing and the exit handler is the one that forwards to
`pushFatalMessageToLogger`, so a later fatal call invokes no custom hook or
handler: the effects it adds contain no such invocation. -/
theorem initializeLogging_resets_hooks (p : Process) (f : PreLoggingHook)
    (h : FatalExitHandler) (worker : LogWorker) (m : FatalMessage) :
    (initializeLogging (setFatalExitHandler (setFatalPreLoggingHook p f) h) worker).preHook
      = .doesNothing ∧
    (initializeLogging (setFatalExitHandler (setFatalPreLoggingHook p f) h) worker).exitHandler
      = .pushFatalMessageToLogger ∧
    (initializeLogging p worker).preHook = .doesNothing ∧
    (initializeLogging p worker).exitHandler = .pushFatalMessageToLogger ∧
    runPreLoggingHook
        (initializeLogging (setFatalExitHandler (setFatalPreLoggingHook p f) h) worker)
      = initializeLogging (setFatalExitHandler (setFatalPreLoggingHook p f) h) worker ∧
    runExitHandler
        (initializeLogging (setFatalExitHandler (setFatalPreLoggingHook p f) h) worker) m
      = pushFatalMessageToLogger
        (initializeLogging (setFatalExitHandler (setFatalPreLoggingHook p f) h) worker) m ∧
    (∃ later : List Effect,
      (fatalCall
        (initializeLogging (setFatalExitHandler (setFatalPreLoggingHook p f) h) worker)
        m).effects = p.effects ++ later ∧
      later.all (fun e => !e.isCustomCall) = true) := by
  refine ⟨rfl, rfl, rfl, rfl, rfl, rfl, ?_⟩
  cases hflag : p.fatalInProgress
  · refine ⟨[.savedFatal worker m, .flushed worker, .raised (terminationSignal m)], ?_, rfl⟩
    rw [fatalCall_of_first _ m (by simpa [initializeLogging, setFatalExitHandler,
      setFatalPreLoggingHook] using hflag)]
    simp [fatalSequence, runExitHandler, runPreLoggingHook, pushFatalMessageToLogger,
      initializeLogging, setFatalExitHandler, setFatalPreLoggingHook]
  · refine ⟨[], ?_, rfl⟩
    rw [fatalCall_of_inProgress _ m (by simpa [initializeLogging, setFatalExitHandler,
      setFatalPreLoggingHook] using hflag)]
    simp [initializeLogging, setFatalExitHandler, setFatalPreLoggingHook]


/-! ### At most one fatal sequence -/

/-- Handler runs of effects put one after the other add up. -/
theorem handlerRuns_append (a b : List Effect) :
    handlerRuns (a ++ b) = handlerRuns a + handlerRuns b := by
  induction a with
  | nil => simp [handlerRuns]
  | cons e rest ih =>
      cases e <;> simp [handlerRuns, ih] <;> omega

/-- The fatal sequence runs a fatal exit handler exactly once. -/
theorem handlerRuns_fatalSequence (p : Process) (m : FatalMessage) :
    handlerRuns (fatalSequence p m).effects = handlerRuns p.effects + 1 := by
  unfold fatalSequence runExitHandler runPreLoggingHook pushFatalMessageToLogger
  cases p.preHook <;> cases p.exitHandler <;> cases p.active <;>
    simp [handlerRuns_append, handlerRuns]

/-- Pushing a log record runs no fatal exit handler and leaves the flag. -/
theorem pushMessageToLogger_fatal_state (p : Process) (m : LogMessage) :
    handlerRuns (pushMessageToLogger p m).effects = handlerRuns p.effects ∧
    (pushMessageToLogger p m).fatalInProgress = p.fatalInProgress := by
  unfold pushMessageToLogger
  cases p.active <;> simp [handlerRuns_append, handlerRuns]

/-- Lifetime invariant: a fatal exit handler has run once if the flag is
set and never if it is clear; every operation keeps it so. -/
theorem perform_keeps_once (p : Process) (op : Operation)
    (h : handlerRuns p.effects = p.fatalInProgress.toNat) :
    handlerRuns (op.perform p).effects = (op.perform p).fatalInProgress.toNat := by
  cases op with
  | initializeLogging logger => exact h
  | shutDownLogging => exact h
  | shutDownLoggingForActiveOnly candidate =>
      by_cases hc : p.active = some candidate
      · simpa [Operation.perform, shutDownLoggingForActiveOnly, hc, shutDownLogging] using h
      · simpa [Operation.perform, shutDownLoggingForActiveOnly, hc] using h
  | setFatalPreLoggingHook hook => exact h
  | setFatalExitHandler handler => exact h
  | pushMessageToLogger m =>
      have hp := pushMessageToLogger_fatal_state p m
      simp only [Operation.perform]
      rw [hp.1, hp.2]
      exact h
  | fatalCall m =>
      simp only [Operation.perform]
      rw [fatalCall_fatalInProgress]
      cases hflag : p.fatalInProgress
      · rw [fatalCall_of_first p m hflag, handlerRuns_fatalSequence]
        simpa [hflag] using h
      · rw [fatalCall_of_inProgress p m hflag]
        simpa [hflag] using h

/-- The lifetime invariant holds after any run of operations. -/
theorem foldl_perform_keeps_once (ops : List Operation) (p : Process)
    (h : handlerRuns p.effects = p.fatalInProgress.toNat) :
    handlerRuns (ops.foldl Operation.perform p).effects
      = (ops.foldl Operation.perform p).fatalInProgress.toNat := by
  induction ops generalizing p with
  | nil => exact h
  | cons op rest ih =>
      rw [List.foldl_cons]
      exact ih _ (perform_keeps_once p op h)

/-- No operation clears the flag. -/
theorem perform_flag_mono (p : Process) (op : Operation) (h : p.fatalInProgress = true) :
    (op.perform p).fatalInProgress = true := by
  cases op with
  | initializeLogging logger => exact h
  | shutDownLogging => exact h
  | shutDownLoggingForActiveOnly candidate =>
      by_cases hc : p.active = some candidate
      · simpa [Operation.perform, shutDownLoggingForActiveOnly, hc, shutDownLogging] using h
      · simpa [Operation.perform, shutDownLoggingForActiveOnly, hc] using h
  | setFatalPreLoggingHook hook => exact h
  | setFatalExitHandler handler => exact h
  | pushMessageToLogger m =>
      simp only [Operation.perform]
      rw [(pushMessageToLogger_fatal_state p m).2]
      exact h
  | fatalCall m => exact fatalCall_fatalInProgress p m

/-- A run of operations that starts with the flag set ends with it set. -/
theorem foldl_perform_flag_mono (ops : List Operation) (p : Process)
    (h : p.fatalInProgress = true) :
    (ops.foldl Operation.perform p).fatalInProgress = true := by
  induction ops generalizing p with
  | nil => exact h
  | cons op rest ih =>
      rw [List.foldl_cons]
      exact ih _ (perform_flag_mono p op h)

/-- A run of operations with a fatal trigger in it ends with the flag set. -/
theorem foldl_perform_flag_of_fatal (ops : List Operation) (p : Process)
    (h : ops.any Operation.isFatal = true) :
    (ops.foldl Operation.perform p).fatalInProgress = true := by
  induction ops generalizing p with
  | nil => simp at h
  | cons op rest ih =>
      rw [List.foldl_cons]
      cases hop : op.isFatal
      · have hrest : rest.any Operation.isFatal = true := by
          simpa [List.any_cons, hop] using h
        exact ih _ hrest
      · apply foldl_perform_flag_mono
        cases op <;> simp [Operation.isFatal] at hop
        exact fatalCall_fatalInProgress p _


/-- Replacing one thread changes a count of threads by that thread alone. -/
theorem countP_set_thread (q : FatalThread → Bool) (l : List FatalThread) (i : Nat)
    (t t2 : FatalThread) (h : l[i]? = some t) :
    (l.set i t2).countP q + (q t).toNat = l.countP q + (q t2).toNat := by
  induction l generalizing i with
  | nil => simp at h
  | cons a rest ih =>
      cases i with
      | zero =>
          simp only [List.getElem?_cons_zero, Option.some.injEq] at h
          subst h
          simp only [List.set_cons_zero, List.countP_cons]
          cases q a <;> cases q t2 <;> simp
      | succ j =>
          simp only [List.getElem?_cons_succ] at h
          have := ih j h
          simp only [List.set_cons_succ, List.countP_cons]
          omega

/-- Among threads that all still wait for the exchange, none has entered. -/
theorem countP_isEntered_of_all_triggered (l : List FatalThread)
    (h : ∀ t ∈ l, t.isTriggered = true) : l.countP FatalThread.isEntered = 0 := by
  rw [List.countP_eq_zero]
  intro t ht
  have := h t ht
  cases t <;> simp_all [FatalThread.isTriggered, FatalThread.isEntered]

/-- Among threads that have all left `fatalCall`, none has entered. -/
theorem countP_isEntered_of_all_finished (l : List FatalThread)
    (h : l.all FatalThread.isFinished = true) : l.countP FatalThread.isEntered = 0 := by
  rw [List.countP_eq_zero]
  intro t ht
  have := (List.all_eq_true.mp h) t ht
  cases t <;> simp_all [FatalThread.isFinished, FatalThread.isEntered]

/-- The step of a thread that waits for the exchange. -/
theorem Racing.step_triggered (s : Racing) (i : Nat) (m : FatalMessage)
    (h : s.threads[i]? = some (.triggered m)) :
    s.step i =
      { process := { s.process with fatalInProgress := true },
        threads := s.threads.set i
          (if s.process.fatalInProgress then .finished else .entered m) } := by
  simp [Racing.step, h, exchangeFatalFlag]

/-- The step of a thread that won the exchange. -/
theorem Racing.step_entered (s : Racing) (i : Nat) (m : FatalMessage)
    (h : s.threads[i]? = some (.entered m)) :
    s.step i =
      { process := fatalSequence s.process m, threads := s.threads.set i .finished } := by
  simp [Racing.step, h]

/-- The step of a thread that is done, or of no thread at all. -/
theorem Racing.step_idle (s : Racing) (i : Nat)
    (h : s.threads[i]? = none ∨ s.threads[i]? = some .finished) : s.step i = s := by
  rcases h with h | h <;> simp [Racing.step, h]

/-- Racing invariant, kept by every step: while the flag is clear no handler
has run since the start and every thread still waits for the exchange; once
it is set, the handler runs since the start and the threads that have won
the exchange but not yet run the sequence make exactly one. -/
theorem Racing.step_keeps (base : Nat) (s : Racing) (i : Nat)
    (hclear : s.process.fatalInProgress = false →
      handlerRuns s.process.effects = base ∧ ∀ t ∈ s.threads, t.isTriggered = true)
    (hset : s.process.fatalInProgress = true →
      handlerRuns s.process.effects + s.threads.countP FatalThread.isEntered = base + 1) :
    ((s.step i).process.fatalInProgress = false →
      handlerRuns (s.step i).process.effects = base ∧
      ∀ t ∈ (s.step i).threads, t.isTriggered = true) ∧
    ((s.step i).process.fatalInProgress = true →
      handlerRuns (s.step i).process.effects
        + (s.step i).threads.countP FatalThread.isEntered = base + 1) := by
  cases hget : s.threads[i]? with
  | none =>
      rw [Racing.step_idle s i (Or.inl hget)]
      exact ⟨hclear, hset⟩
  | some t =>
      cases t with
      | finished =>
          rw [Racing.step_idle s i (Or.inr hget)]
          exact ⟨hclear, hset⟩
      | triggered m =>
          rw [Racing.step_triggered s i m hget]
          refine ⟨fun h => by simp at h, fun _ => ?_⟩
          cases hflag : s.process.fatalInProgress
          · have hc := hclear hflag
            have h0 := countP_isEntered_of_all_triggered s.threads hc.2
            have hcount := countP_set_thread FatalThread.isEntered s.threads i _
              (.entered m) hget
            simp only [FatalThread.isEntered, Bool.toNat_false, Bool.toNat_true] at hcount
            simp only [Bool.false_eq_true, if_false]
            omega
          · have hs := hset hflag
            have hcount := countP_set_thread FatalThread.isEntered s.threads i _
              .finished hget
            simp only [FatalThread.isEntered, Bool.toNat_false] at hcount
            simp only [if_true]
            omega
      | entered m =>
          rw [Racing.step_entered s i m hget]
          have hmem : FatalThread.entered m ∈ s.threads := List.getElem?_mem hget
          have hflag : s.process.fatalInProgress = true := by
            cases hf : s.process.fatalInProgress
            · have := (hclear hf).2 _ hmem
              simp [FatalThread.isTriggered] at this
            · rfl
          have hs := hset hflag
          have hcount := countP_set_thread FatalThread.isEntered s.threads i _
            .finished hget
          simp only [FatalThread.isEntered, Bool.toNat_false, Bool.toNat_true] at hcount
          refine ⟨fun h => ?_, fun _ => ?_⟩
          · rw [fatalSequence_fatalInProgress, hflag] at h
            cases h
          · simp only [handlerRuns_fatalSequence]
            omega

/-- The racing invariant holds after any schedule. -/
theorem Racing.run_keeps (base : Nat) (schedule : List Nat) (s : Racing)
    (hclear : s.process.fatalInProgress = false →
      handlerRuns s.process.effects = base ∧ ∀ t ∈ s.threads, t.isTriggered = true)
    (hset : s.process.fatalInProgress = true →
      handlerRuns s.process.effects + s.threads.countP FatalThread.isEntered = base + 1) :
    ((s.run schedule).process.fatalInProgress = false →
      handlerRuns (s.run schedule).process.effects = base ∧
      ∀ t ∈ (s.run schedule).threads, t.isTriggered = true) ∧
    ((s.run schedule).process.fatalInProgress = true →
      handlerRuns (s.run schedule).process.effects
        + (s.run schedule).threads.countP FatalThread.isEntered = base + 1) := by
  induction schedule generalizing s with
  | nil => exact ⟨hclear, hset⟩
  | cons i rest ih =>
      have hstep := Racing.step_keeps base s i hclear hset
      exact ih (s.step i) hstep.1 hstep.2

/-- No step changes the number of threads. -/
theorem Racing.step_length (s : Racing) (i : Nat) :
    (s.step i).threads.length = s.threads.length := by
  cases hget : s.threads[i]? with
  | none => rw [Racing.step_idle s i (Or.inl hget)]
  | some t =>
      cases t with
      | finished => rw [Racing.step_idle s i (Or.inr hget)]
      | triggered m => rw [Racing.step_triggered s i m hget]; simp
      | entered m => rw [Racing.step_entered s i m hget]; simp

/-- No schedule changes the number of threads. -/
theorem Racing.run_length (schedule : List Nat) (s : Racing) :
    (s.run schedule).threads.length = s.threads.length := by
  induction schedule generalizing s with
  | nil => rfl
  | cons i rest ih =>
      show ((s.step i).run rest).threads.length = s.threads.length
      rw [ih, Racing.step_length]


/-- One thread alone, stepping through the exchange and the sequence, does
what `fatalCall` does. -/
theorem Racing.single_thread_is_fatalCall (p : Process) (m : FatalMessage) :
    ((Racing.mk p [.triggered m]).run [0, 0]).process = fatalCall p m := by
  cases h : p.fatalInProgress <;>
    simp [Racing.run, Racing.step, exchangeFatalFlag, fatalCall, h]

/-- C9: the fatal sequence runs at most once per process lifetime.  Over
any run of operations from process start a fatal exit handler runs at most
once, and exactly once when the run has a fatal trigger in it; a fatal call
sets the flag, and a later fatal call changes nothing; and for threads that
race through `fatalCall` from a state with the flag clear, under any
schedule of their atomic steps, a fatal exit handler runs at most once, and
exactly once when there is a trigger and every thread has left
`fatalCall`: a counting handler counts 1. -/
theorem fatal_sequence_at_most_once :
    (∀ ops : List Operation,
      handlerRuns (ops.foldl Operation.perform Process.start).effects ≤ 1 ∧
      (ops.any Operation.isFatal = true →
        handlerRuns (ops.foldl Operation.perform Process.start).effects = 1)) ∧
    (∀ (p : Process) (first later : FatalMessage),
      (fatalCall p first).fatalInProgress = true ∧
      fatalCall (fatalCall p first) later = fatalCall p first) ∧
    (∀ (p : Process) (triggers : List FatalMessage) (schedule : List Nat),
      p.fatalInProgress = false →
      handlerRuns ((Racing.mk p (triggers.map .triggered)).run schedule).process.effects
        ≤ handlerRuns p.effects + 1 ∧
      (triggers ≠ [] →
        ((Racing.mk p (triggers.map .triggered)).run schedule).threads.all
          FatalThread.isFinished = true →
        handlerRuns ((Racing.mk p (triggers.map .triggered)).run schedule).process.effects
          = handlerRuns p.effects + 1)) := by
  refine ⟨?_, ?_, ?_⟩
  · intro ops
    have hinv := foldl_perform_keeps_once ops Process.start rfl
    constructor
    · rw [hinv]
      cases (ops.foldl Operation.perform Process.start).fatalInProgress <;> simp
    · intro hfatal
      rw [hinv, foldl_perform_flag_of_fatal ops Process.start hfatal]
      rfl
  · intro p first later
    exact ⟨fatalCall_fatalInProgress p first,
      fatalCall_of_inProgress _ later (fatalCall_fatalInProgress p first)⟩
  · intro p triggers schedule hflag
    have hinv := Racing.run_keeps (handlerRuns p.effects) schedule
      (Racing.mk p (triggers.map .triggered))
      (fun _ => ⟨rfl, by
        intro t ht
        simp only [List.mem_map] at ht
        obtain ⟨m, _, rfl⟩ := ht
        rfl⟩)
      (fun h => by simp [hflag] at h)
    constructor
    · cases hend :
        ((Racing.mk p (triggers.map .triggered)).run schedule).process.fatalInProgress
      · rw [(hinv.1 hend).1]; omega
      · have := hinv.2 hend; omega
    · intro hne hdone
      have hlen := Racing.run_length schedule (Racing.mk p (triggers.map .triggered))
      simp only [List.length_map] at hlen
      cases hend :
        ((Racing.mk p (triggers.map .triggered)).run schedule).process.fatalInProgress
      · exfalso
        have hall := (hinv.1 hend).2
        cases hthreads : ((Racing.mk p (triggers.map .triggered)).run schedule).threads with
        | nil =>
            rw [hthreads] at hlen
            exact hne (List.length_eq_zero.mp hlen.symm)
        | cons t rest =>
            have h1 := hall t (by rw [hthreads]; exact List.mem_cons_self t rest)
            have h2 := (List.all_eq_true.mp hdone) t
              (by rw [hthreads]; exact List.mem_cons_self t rest)
            cases t <;> simp [FatalThread.isTriggered, FatalThread.isFinished] at h1 h2
      · have h1 := hinv.2 hend
        have h2 := countP_isEntered_of_all_finished _ hdone
        omega

/-- Witness for C9: two fatal triggers in one lifetime under a counting
handler, and two threads racing (both do the exchange before the winner
runs the sequence): the handler ran once in each case. -/
theorem fatal_sequence_at_most_once_witness :
    handlerRuns (twoFatalOperations.foldl Operation.perform Process.start).effects = 1 ∧
    countingA.fatalInProgress = false ∧
    (twoRacing.run [0, 1, 1, 0]).threads.all FatalThread.isFinished = true ∧
    handlerRuns (twoRacing.run [0, 1, 1, 0]).process.effects = 1 :=
  ⟨(fatal_sequence_at_most_once.1 twoFatalOperations).2 (by decide),
   rfl,
   by decide,
   ((fatal_sequence_at_most_once.2.2 countingA [brokenOneEqTwo, segvRecord] [0, 1, 1, 0]
      rfl).2 (by simp) (by decide))⟩


end g2
